import Mathlib

/-!
Shallow embedding of the SNMP v2c manager core (src/snmp.rs) and proofs of
the specification's claims about it.  Machine integers are modelled as
`Nat`/`Int` with explicit bounds where the code depends on them; code that
can panic (`todo!()`, `unwrap()`) returns a `PResult`, whose `panic`
constructor records a process abort.
-/

namespace Snmp

/-- Upper bound (exclusive) of a Rust `u32`: sub-identifiers and the 32-bit
wire quantities are unsigned 32-bit integers. -/
def u32Size : Nat := 4294967296

/-- `ObjectIdentifier` (src/snmp.rs line 10): a wrapper around a sequence of
u32 sub-identifiers (rasn arcs). -/
structure ObjectIdentifier where
  segments : List Nat
deriving Repr, DecidableEq

/-- `ObjectIdentifier::starts_with` (src/snmp.rs lines 14-16): delegates to
slice `starts_with`, i.e. literal sequence-prefix containment. -/
def ObjectIdentifier.starts_with (self pre : ObjectIdentifier) : Bool :=
  pre.segments.isPrefixOf self.segments

/-- Outcome of code that can hit `todo!()` or `.unwrap()`: a value, or a
process-aborting panic. -/
inductive PResult (α : Type) where
  | ok (a : α)
  | panic
deriving Repr, DecidableEq

/-- Character code of the decimal digit `d`. -/
def digitChar (d : Nat) : Char := Char.ofNat (48 + d)

/-- Whether `c` is an ASCII decimal digit. -/
def isDigitChar (c : Char) : Bool := 48 ≤ c.toNat && c.toNat ≤ 57

/-- Decimal digits of `n`, most significant first, empty for `n = 0`; the
first argument is fuel bounding the recursion (complete when fuel ≥ n). -/
def renderDigits : Nat → Nat → List Char
  | _, 0 => []
  | 0, _ + 1 => []
  | fuel + 1, n + 1 => renderDigits fuel ((n + 1) / 10) ++ [digitChar ((n + 1) % 10)]

/-- Rust `Display` of an unsigned integer: plain decimal, `"0"` for zero. -/
def renderNat (n : Nat) : List Char := if n = 0 then ['0'] else renderDigits n n

/-- `Display for ObjectIdentifier` (src/snmp.rs lines 19-33): the first
segment in decimal, then a dot before each following segment. -/
def to_text (oid : ObjectIdentifier) : List Char :=
  match oid.segments with
  | [] => []
  | s :: rest => renderNat s ++ rest.foldr (fun n acc => '.' :: (renderNat n ++ acc)) []

/-- Rust `str::split('.')`: the possibly empty chunks between dots — one
chunk more than there are dots, `[[]]` for the empty string. -/
def splitDot : List Char → List (List Char)
  | [] => [[]]
  | c :: rest =>
    match splitDot rest with
    | [] => [[c]]
    | s :: ss => if c = '.' then [] :: s :: ss else (c :: s) :: ss

/-- The optional leading plus sign Rust integer parsing strips. -/
def stripPlusSign : List Char → List Char
  | c :: rest => if c = '+' then rest else c :: rest
  | [] => []

/-- Rust `u32::from_str` on one chunk: an optional leading plus sign, then a
non-empty run of decimal digits whose value fits in 32 bits; a minus sign,
a stray character, an empty chunk or an oversize value all fail. -/
def parseU32 (cs : List Char) : Option Nat :=
  let ds := stripPlusSign cs
  if ds = [] then none
  else if ds.all isDigitChar then
    let v := ds.foldl (fun a c => a * 10 + (c.toNat - 48)) 0
    if v < u32Size then some v else none
  else none

/-- The `map(parse).collect()` over the chunks: every chunk must parse. -/
def parseSegments : List (List Char) → Option (List Nat)
  | [] => some []
  | c :: rest =>
    match parseU32 c, parseSegments rest with
    | some v, some vs => some (v :: vs)
    | _, _ => none

/-- `ObjectIdentifier::from_str` (src/snmp.rs lines 35-45): splits on dots,
parses every chunk as u32 with `.unwrap()` — any chunk that fails to parse
aborts the process — and wraps the sequence unchecked. -/
def from_str (cs : List Char) : PResult ObjectIdentifier :=
  match parseSegments (splitDot cs) with
  | some segs => .ok { segments := segs }
  | none => .panic

/-- `rasn_smi::v2::SimpleSyntax` as consumed by `convert`: Integer is the
arbitrary-precision rasn Integer, String an octet string (raw bytes). -/
inductive SimpleSyntax where
  | Integer (value : Int)
  | String (bytes : List Nat)
  | ObjectId (oid : ObjectIdentifier)
deriving Repr, DecidableEq

/-- `rasn_smi::v2::ApplicationSyntax` as consumed by `convert`: Address is a
4-octet IPv4 address, Counter/Ticks/Unsigned are u32, BigCounter u64,
Arbitrary an opaque byte blob. -/
inductive ApplicationSyntax where
  | Address (o0 o1 o2 o3 : Nat)
  | Counter (value : Nat)
  | Ticks (value : Nat)
  | Arbitrary (bytes : List Nat)
  | BigCounter (value : Nat)
  | Unsigned (value : Nat)
deriving Repr, DecidableEq

/-- `rasn_smi::v2::ObjectSyntax`: the wire value syntaxes. -/
inductive ObjectSyntax where
  | Simple (s : SimpleSyntax)
  | ApplicationWide (a : ApplicationSyntax)
deriving Repr, DecidableEq

/-- `rasn_snmp::v2::VarBindValue`: a wire value or one of the four special
markers. -/
inductive VarBindValue where
  | Value (v : ObjectSyntax)
  | Unspecified
  | NoSuchObject
  | NoSuchInstance
  | EndOfMibView
deriving Repr, DecidableEq

/-- `ObjectValue` (src/snmp.rs lines 47-59): the internal tagged union. -/
inductive ObjectValue where
  | Integer (value : Int)
  | OctetString (bytes : List Nat)
  | ObjectIdentifier (oid : ObjectIdentifier)
  | Integer32 (value : Int)
  | IpAddress (o0 o1 o2 o3 : Nat)
  | Counter32 (value : Nat)
  | Unsigned32 (value : Nat)
  | TimeTicks (value : Nat)
  | Opaque (bytes : List Nat)
  | Counter64 (value : Nat)
deriving Repr, DecidableEq

/-- Inner match of `convert` (src/snmp.rs lines 203-229): the conversion of a
decoded wire syntax value to the internal tagged union. -/
def convertSyntax : ObjectSyntax → ObjectValue
  | .Simple (.Integer v) => .Integer v
  | .Simple (.String b) => .OctetString b
  | .Simple (.ObjectId o) => .ObjectIdentifier o
  | .ApplicationWide (.Address o0 o1 o2 o3) => .IpAddress o0 o1 o2 o3
  | .ApplicationWide (.Counter v) => .Counter32 v
  | .ApplicationWide (.Ticks v) => .TimeTicks v
  | .ApplicationWide (.Arbitrary b) => .Opaque b
  | .ApplicationWide (.BigCounter v) => .Counter64 v
  | .ApplicationWide (.Unsigned v) => .Unsigned32 v

/-- `convert` (src/snmp.rs lines 201-235): a proper wire value converts via
`convertSyntax`; each of the four special markers hits a `todo!()`
(lines 230-233), which aborts the process. -/
def convert : VarBindValue → PResult ObjectValue
  | .Value v => .ok (convertSyntax v)
  | .Unspecified => .panic
  | .NoSuchObject => .panic
  | .NoSuchInstance => .panic
  | .EndOfMibView => .panic

/-- `VariableBinding` (src/snmp.rs lines 61-64). -/
structure VariableBinding where
  object_id : ObjectIdentifier
  value : ObjectValue
deriving Repr, DecidableEq

/-- `rasn_snmp::v2::VarBind`: one wire binding of a response PDU. -/
structure VarBind where
  name : ObjectIdentifier
  value : VarBindValue
deriving Repr, DecidableEq

/-- `Target` (src/snmp.rs lines 66-72): the v2c community variant.  The
socket address is abstracted to a `Nat`; none of the modelled code inspects
it beyond passing it to the socket. -/
inductive Target where
  | Community (address : Nat) (community : List Nat)
deriving Repr, DecidableEq

/-- `Error` (src/snmp.rs lines 83-87): the only two error kinds the code can
return. -/
inductive Error where
  | Connection
  | Serialization
deriving Repr, DecidableEq

/-- `rasn_snmp::v2::Pdu` as built and consumed by the code: request id,
error status, error index and the variable bindings. -/
structure Pdu where
  request_id : Int
  error_status : Nat
  error_index : Nat
  variable_bindings : List VarBind
deriving Repr, DecidableEq

/-- `rasn_snmp::v2::BulkPdu` as built by `get_bulk`. -/
structure BulkPdu where
  request_id : Int
  non_repeaters : Nat
  max_repetitions : Nat
  variable_bindings : List VarBind
deriving Repr, DecidableEq

/-- `rasn_snmp::v2c::Message` wrapper: version, community, payload. -/
structure Message (P : Type) where
  version : Int
  community : List Nat
  data : P
deriving Repr, DecidableEq

/-- The GetRequest message `get` builds (src/snmp.rs lines 106-124): version
1, the target's community, request id hard-coded to 1, error status and
index 0, one unspecified-valued binding per requested identifier. -/
def build_get_message (t : Target) (oids : List ObjectIdentifier) : Message Pdu :=
  match t with
  | .Community _ c =>
    { version := 1
      community := c
      data :=
        { request_id := 1
          error_status := 0
          error_index := 0
          variable_bindings := oids.map fun oid => { name := oid, value := .Unspecified } } }

/-- The GetBulkRequest message `get_bulk` builds (src/snmp.rs lines
155-173): version 1, the target's community, request id hard-coded to 1,
non-repeaters 0, max-repetitions hard-coded to 20, a single seed binding. -/
def build_get_bulk_message (t : Target) (oid : ObjectIdentifier) : Message BulkPdu :=
  match t with
  | .Community _ c =>
    { version := 1
      community := c
      data :=
        { request_id := 1
          non_repeaters := 0
          max_repetitions := 20
          variable_bindings := [{ name := oid, value := .Unspecified }] } }

/-- One step of the response mapping (src/snmp.rs lines 140-143 and
192-195): keep the binding's name, convert its value; a marker value panics
the whole call through `convert`. -/
def convertBinding (b : VarBind) : PResult VariableBinding :=
  match convert b.value with
  | .ok v => .ok { object_id := b.name, value := v }
  | .panic => .panic

/-- The `.iter().map(...).collect()` of the response bindings: converts each
in order; a panic on any element aborts the whole call. -/
def mapConvert : List VarBind → PResult (List VariableBinding)
  | [] => .ok []
  | b :: rest =>
    match convertBinding b with
    | .panic => .panic
    | .ok v =>
      match mapConvert rest with
      | .panic => .panic
      | .ok vs => .ok (v :: vs)

/-- Response processing of `get` (src/snmp.rs lines 138-145): every decoded
binding is converted and returned; the response's request id and error
status are not inspected. -/
def process_get_response (resp : Message Pdu) : PResult (List VariableBinding) :=
  mapConvert resp.data.variable_bindings

/-- Response processing of `get_bulk` (src/snmp.rs lines 190-198): converts
every decoded binding, then filters to those whose identifier starts with
the seed identifier; the response's request id and error status are not
inspected. -/
def process_get_bulk_response (oid : ObjectIdentifier) (resp : Message Pdu) :
    PResult (List VariableBinding) :=
  match mapConvert resp.data.variable_bindings with
  | .ok l => .ok (l.filter fun b => b.object_id.starts_with oid)
  | .panic => .panic

/-- The environment one `get`/`get_bulk` call runs against: whether the
socket bind, the BER encode and the send succeed, and the reply —
`none` when no datagram ever arrives, `some none` when one arrives but
fails BER decoding, `some (some resp)` when it decodes to `resp`. -/
structure NetEnv where
  bind_ok : Bool
  encode_ok : Bool
  send_ok : Bool
  reply : Option (Option (Message Pdu))
deriving Repr, DecidableEq

/-- Observable outcome of one call, together with how it ends: a result, an
error, a process panic, or blocking forever on `recv_from`. -/
inductive Outcome (α : Type) where
  | ok (a : α)
  | err (e : Error)
  | panic
  | hang
deriving Repr, DecidableEq

/-- `get` (src/snmp.rs lines 99-146) as a function of its environment:
bind, build the message, encode, send once, receive (blocking, no timeout,
no retry), decode, convert.  The second component counts send attempts. -/
def get (env : NetEnv) (t : Target) (oids : List ObjectIdentifier) :
    Outcome (List VariableBinding) × Nat :=
  if env.bind_ok = false then (.err .Connection, 0)
  else
    let _message := build_get_message t oids
    if env.encode_ok = false then (.err .Serialization, 0)
    else if env.send_ok = false then (.err .Connection, 1)
    else
      match env.reply with
      | none => (.hang, 1)
      | some none => (.err .Serialization, 1)
      | some (some resp) =>
        match process_get_response resp with
        | .ok l => (.ok l, 1)
        | .panic => (.panic, 1)

/-- `get_bulk` (src/snmp.rs lines 148-199) as a function of its environment:
bind, build the bulk message, encode, send once, receive (blocking, no
timeout, no retry), decode, convert and filter.  The second component
counts send attempts. -/
def get_bulk (env : NetEnv) (t : Target) (oid : ObjectIdentifier) :
    Outcome (List VariableBinding) × Nat :=
  if env.bind_ok = false then (.err .Connection, 0)
  else
    let _message := build_get_bulk_message t oid
    if env.encode_ok = false then (.err .Serialization, 0)
    else if env.send_ok = false then (.err .Connection, 1)
    else
      match env.reply with
      | none => (.hang, 1)
      | some none => (.err .Serialization, 1)
      | some (some resp) =>
        match process_get_bulk_response oid resp with
        | .ok l => (.ok l, 1)
        | .panic => (.panic, 1)

/-- Left inverse of `convertSyntax`: recovers the wire syntax from a
converted value, witnessing that the conversion loses nothing.  `Integer32`
is the one variant no wire syntax converts to. -/
def syntaxOfValue : ObjectValue → Option ObjectSyntax
  | .Integer v => some (.Simple (.Integer v))
  | .OctetString b => some (.Simple (.String b))
  | .ObjectIdentifier o => some (.Simple (.ObjectId o))
  | .IpAddress o0 o1 o2 o3 => some (.ApplicationWide (.Address o0 o1 o2 o3))
  | .Counter32 v => some (.ApplicationWide (.Counter v))
  | .TimeTicks v => some (.ApplicationWide (.Ticks v))
  | .Opaque b => some (.ApplicationWide (.Arbitrary b))
  | .Counter64 v => some (.ApplicationWide (.BigCounter v))
  | .Unsigned32 v => some (.ApplicationWide (.Unsigned v))
  | .Integer32 _ => none

/-- Whether a converted value is the `Integer32` variant. -/
def isInteger32 : ObjectValue → Bool
  | .Integer32 _ => true
  | _ => false

/-- Sample seed identifier for the get-bulk filtering witness. -/
def sampleRoot : ObjectIdentifier := { segments := [1, 3] }

/-- Sample decoded reply: one binding under `sampleRoot`, one outside it. -/
def sampleResponse : Message Pdu :=
  { version := 1
    community := []
    data :=
      { request_id := 1
        error_status := 0
        error_index := 0
        variable_bindings :=
          [ { name := { segments := [1, 3, 1] }, value := .Value (.Simple (.Integer 7)) },
            { name := { segments := [2, 5] }, value := .Value (.ApplicationWide (.Counter 9)) } ] } }

/-- What `get_bulk` keeps of `sampleResponse`: the one in-subtree binding. -/
def sampleResult : List VariableBinding :=
  [ { object_id := { segments := [1, 3, 1] }, value := .Integer 7 } ]

/-- A decoded reply whose request id (999) differs from the constant id 1
the code sends, and whose error status (2) is non-zero. -/
def mismatchedResponse : Message Pdu :=
  { version := 1
    community := []
    data :=
      { request_id := 999
        error_status := 2
        error_index := 1
        variable_bindings :=
          [ { name := { segments := [1, 3] }, value := .Value (.Simple (.Integer 7)) } ] } }

/-- Root of the subtree walked in the get-bulk termination scenario. -/
def walkRoot : ObjectIdentifier := { segments := [1, 3, 6, 1, 2, 1, 1] }

/-- Agent reply for the termination scenario: three bindings under the
root, a fourth outside it, and a fifth under it again. -/
def walkResponse : Message Pdu :=
  { version := 1
    community := []
    data :=
      { request_id := 1
        error_status := 0
        error_index := 0
        variable_bindings :=
          [ { name := { segments := [1, 3, 6, 1, 2, 1, 1, 1] }, value := .Value (.Simple (.Integer 1)) },
            { name := { segments := [1, 3, 6, 1, 2, 1, 1, 2] }, value := .Value (.Simple (.Integer 2)) },
            { name := { segments := [1, 3, 6, 1, 2, 1, 1, 3] }, value := .Value (.Simple (.Integer 3)) },
            { name := { segments := [1, 3, 6, 1, 2, 2] }, value := .Value (.Simple (.Integer 4)) },
            { name := { segments := [1, 3, 6, 1, 2, 1, 1, 5] }, value := .Value (.Simple (.Integer 5)) } ] } }

/-- The first three (in-subtree) bindings of `walkResponse`, converted. -/
def walkFirstThree : List VariableBinding :=
  [ { object_id := { segments := [1, 3, 6, 1, 2, 1, 1, 1] }, value := .Integer 1 },
    { object_id := { segments := [1, 3, 6, 1, 2, 1, 1, 2] }, value := .Integer 2 },
    { object_id := { segments := [1, 3, 6, 1, 2, 1, 1, 3] }, value := .Integer 3 } ]

/-- The fifth binding of `walkResponse`, converted: under the root although
it comes after an out-of-subtree binding. -/
def walkFifth : VariableBinding :=
  { object_id := { segments := [1, 3, 6, 1, 2, 1, 1, 5] }, value := .Integer 5 }

/-- Agent reply matching the spec scenario exactly: three bindings under
the root, then two outside it, none re-entering the subtree. -/
def walkResponse2 : Message Pdu :=
  { version := 1
    community := []
    data :=
      { request_id := 1
        error_status := 0
        error_index := 0
        variable_bindings :=
          [ { name := { segments := [1, 3, 6, 1, 2, 1, 1, 1] }, value := .Value (.Simple (.Integer 1)) },
            { name := { segments := [1, 3, 6, 1, 2, 1, 1, 2] }, value := .Value (.Simple (.Integer 2)) },
            { name := { segments := [1, 3, 6, 1, 2, 1, 1, 3] }, value := .Value (.Simple (.Integer 3)) },
            { name := { segments := [1, 3, 6, 1, 2, 2] }, value := .Value (.Simple (.Integer 4)) },
            { name := { segments := [1, 3, 6, 1, 2, 3] }, value := .Value (.Simple (.Integer 5)) } ] } }

/-- The two out-of-subtree bindings of `walkResponse2`, converted. -/
def walkTail2 : List VariableBinding :=
  [ { object_id := { segments := [1, 3, 6, 1, 2, 2] }, value := .Integer 4 },
    { object_id := { segments := [1, 3, 6, 1, 2, 3] }, value := .Integer 5 } ]

/-! ## Rendering and parsing lemmas -/

theorem digitChar_toNat {d : Nat} (h : d < 10) : (digitChar d).toNat = 48 + d := by
  interval_cases d <;> decide

theorem isDigitChar_digitChar {d : Nat} (h : d < 10) : isDigitChar (digitChar d) = true := by
  interval_cases d <;> decide

theorem renderDigits_all_digits :
    ∀ fuel n, ∀ c ∈ renderDigits fuel n, isDigitChar c = true := by
  intro fuel
  induction fuel with
  | zero =>
    intro n c hc
    cases n <;> simp [renderDigits] at hc
  | succ f ih =>
    intro n c hc
    cases n with
    | zero => simp [renderDigits] at hc
    | succ m =>
      simp only [renderDigits, List.mem_append, List.mem_singleton] at hc
      rcases hc with h | h
      · exact ih _ c h
      · subst h
        exact isDigitChar_digitChar (Nat.mod_lt _ (by norm_num))

theorem renderDigits_foldl :
    ∀ fuel n a, n ≤ fuel →
      (renderDigits fuel n).foldl (fun x c => x * 10 + (c.toNat - 48)) a
        = a * 10 ^ (renderDigits fuel n).length + n := by
  intro fuel
  induction fuel with
  | zero =>
    intro n a h
    obtain rfl : n = 0 := Nat.le_zero.mp h
    simp [renderDigits]
  | succ f ih =>
    intro n a h
    cases n with
    | zero => simp [renderDigits]
    | succ m =>
      have hdiv : (m + 1) / 10 ≤ f := by
        have h1 : (m + 1) / 10 < m + 1 := Nat.div_lt_self (Nat.succ_pos m) (by norm_num)
        omega
      have hm : (m + 1) / 10 * 10 + (m + 1) % 10 = m + 1 := by omega
      simp only [renderDigits, List.foldl_append, List.foldl_cons, List.foldl_nil,
        List.length_append, List.length_cons, List.length_nil]
      rw [ih _ a hdiv, digitChar_toNat (Nat.mod_lt _ (by norm_num))]
      have h48 : 48 + (m + 1) % 10 - 48 = (m + 1) % 10 := by omega
      rw [h48, pow_succ]
      set L := (renderDigits f ((m + 1) / 10)).length with hL
      calc (a * 10 ^ L + (m + 1) / 10) * 10 + (m + 1) % 10
          = a * (10 ^ L * 10) + ((m + 1) / 10 * 10 + (m + 1) % 10) := by ring
        _ = a * (10 ^ L * 10) + (m + 1) := by rw [hm]

theorem renderDigits_ne_nil {fuel n : Nat} (h : n ≠ 0) (hf : fuel ≠ 0) :
    renderDigits fuel n ≠ [] := by
  cases fuel with
  | zero => exact absurd rfl hf
  | succ f =>
    cases n with
    | zero => exact absurd rfl h
    | succ m => simp [renderDigits]

theorem renderNat_all_digits (n : Nat) : ∀ c ∈ renderNat n, isDigitChar c = true := by
  intro c hc
  by_cases h : n = 0
  · subst h
    simp only [renderNat, if_pos rfl, List.mem_singleton] at hc
    simp at hc
    subst hc
    decide
  · simp only [renderNat, if_neg h] at hc
    exact renderDigits_all_digits n n c hc

theorem renderNat_ne_nil (n : Nat) : renderNat n ≠ [] := by
  by_cases h : n = 0
  · subst h; simp [renderNat]
  · simp only [renderNat, if_neg h]
    exact renderDigits_ne_nil h h

theorem renderNat_foldl (n : Nat) :
    (renderNat n).foldl (fun x c => x * 10 + (c.toNat - 48)) 0 = n := by
  by_cases h : n = 0
  · subst h; decide
  · simp only [renderNat, if_neg h]
    have := renderDigits_foldl n n 0 le_rfl
    simpa using this

theorem parseU32_renderNat {n : Nat} (h : n < u32Size) : parseU32 (renderNat n) = some n := by
  have hne := renderNat_ne_nil n
  have hall : (renderNat n).all isDigitChar = true :=
    List.all_eq_true.mpr (renderNat_all_digits n)
  have hstrip : stripPlusSign (renderNat n) = renderNat n := by
    obtain ⟨c, rest, hcr⟩ := List.exists_cons_of_ne_nil hne
    have hcd : isDigitChar c = true :=
      renderNat_all_digits n c (by rw [hcr]; exact List.mem_cons_self _ _)
    have hplus : c ≠ '+' := by
      intro hc
      rw [hc] at hcd
      exact absurd hcd (by decide)
    rw [hcr]
    simp [stripPlusSign, hplus]
  simp [parseU32, hstrip, hne, hall, renderNat_foldl, h]

theorem splitDot_ne_nil (cs : List Char) : splitDot cs ≠ [] := by
  cases cs with
  | nil => simp [splitDot]
  | cons c rest =>
    simp only [splitDot]
    cases h : splitDot rest with
    | nil => simp
    | cons s ss => by_cases hc : c = '.' <;> simp [hc]

theorem splitDot_no_dot {l : List Char} (h : ∀ c ∈ l, c ≠ '.') : splitDot l = [l] := by
  induction l with
  | nil => rfl
  | cons c rest ih =>
    have hr : splitDot rest = [rest] := ih fun x hx => h x (List.mem_cons_of_mem _ hx)
    have hc : c ≠ '.' := h c (List.mem_cons_self _ _)
    simp [splitDot, hr, hc]

theorem splitDot_append_dot {l : List Char} (rest : List Char) (h : ∀ c ∈ l, c ≠ '.') :
    splitDot (l ++ '.' :: rest) = l :: splitDot rest := by
  induction l with
  | nil =>
    simp only [List.nil_append, splitDot]
    cases hr : splitDot rest with
    | nil => exact absurd hr (splitDot_ne_nil rest)
    | cons s ss => simp
  | cons c tail ih =>
    have hc : c ≠ '.' := h c (List.mem_cons_self _ _)
    have hr := ih fun x hx => h x (List.mem_cons_of_mem _ hx)
    rw [List.cons_append]
    simp only [splitDot]
    rw [hr]
    simp [hc]

theorem renderNat_no_dot (n : Nat) : ∀ c ∈ renderNat n, c ≠ '.' := by
  intro c hc hdot
  have hd := renderNat_all_digits n c hc
  rw [hdot] at hd
  exact absurd hd (by decide)

theorem to_text_cons (s r : Nat) (rest : List Nat) :
    to_text { segments := s :: r :: rest }
      = renderNat s ++ '.' :: to_text { segments := r :: rest } := by
  simp [to_text]

theorem splitDot_to_text (s : Nat) (rest : List Nat) :
    splitDot (to_text { segments := s :: rest }) = (s :: rest).map renderNat := by
  induction rest generalizing s with
  | nil =>
    simp only [to_text, List.foldr_nil, List.append_nil, List.map_cons, List.map_nil]
    exact splitDot_no_dot (renderNat_no_dot s)
  | cons r tail ih =>
    rw [to_text_cons, splitDot_append_dot _ (renderNat_no_dot s), ih r]
    simp

theorem parseSegments_map_renderNat {l : List Nat} (h : ∀ x ∈ l, x < u32Size) :
    parseSegments (l.map renderNat) = some l := by
  induction l with
  | nil => rfl
  | cons x tail ih =>
    have hx := h x (List.mem_cons_self _ _)
    have hl := ih fun y hy => h y (List.mem_cons_of_mem _ hy)
    simp [parseSegments, parseU32_renderNat hx, hl]

/-! ## Response-processing lemmas -/

theorem mapConvert_names : ∀ {bs : List VarBind} {l : List VariableBinding},
    mapConvert bs = .ok l → l.map (fun b => b.object_id) = bs.map (fun b => b.name)
  | [], l, h => by
    simp only [mapConvert] at h
    injection h with h
    subst h
    rfl
  | b :: bs, l, h => by
    simp only [mapConvert] at h
    cases hb : convertBinding b with
    | panic => rw [hb] at h; cases h
    | ok v =>
      rw [hb] at h
      cases hrest : mapConvert bs with
      | panic => rw [hrest] at h; cases h
      | ok vs =>
        rw [hrest] at h
        injection h with h
        subst h
        have hv : v.object_id = b.name := by
          simp only [convertBinding] at hb
          cases hc : convert b.value with
          | ok w => rw [hc] at hb; injection hb with hb; rw [← hb]
          | panic => rw [hc] at hb; cases hb
        simp only [List.map_cons, hv, mapConvert_names hrest]

/-! ## The claims -/

/-- C1 (code bug): the four special wire markers do not surface as a
recoverable `BoundaryCondition` result — `convert` hits a `todo!()` on each
of them (src/snmp.rs lines 230-233), so a reply carrying one aborts the
process, and the `Error` type has no boundary-condition kind at all. -/
theorem c1_markers_panic :
    convert .Unspecified = .panic ∧ convert .NoSuchObject = .panic ∧
    convert .NoSuchInstance = .panic ∧ convert .EndOfMibView = .panic :=
  ⟨rfl, rfl, rfl, rfl⟩

/-- C2: whenever `get_bulk`'s response processing returns a binding list,
every binding's identifier has the seed identifier as a prefix, and the
identifiers appear as a subsequence of the agent's returned order. -/
theorem c2_get_bulk_prefix_and_order (oid : ObjectIdentifier) (resp : Message Pdu)
    (l : List VariableBinding) (h : process_get_bulk_response oid resp = .ok l) :
    (∀ b ∈ l, b.object_id.starts_with oid = true) ∧
    List.Sublist (l.map fun b => b.object_id)
      (resp.data.variable_bindings.map fun b => b.name) := by
  simp only [process_get_bulk_response] at h
  cases hm : mapConvert resp.data.variable_bindings with
  | panic => rw [hm] at h; cases h
  | ok m =>
    rw [hm] at h
    injection h with h
    subst h
    constructor
    · intro b hb
      simpa using (List.mem_filter.mp hb).2
    · rw [← mapConvert_names hm]
      exact List.Sublist.map _ (List.filter_sublist m)

/-- Witness for C2 at a concrete reply with one in-subtree and one
out-of-subtree binding. -/
theorem c2_get_bulk_prefix_and_order_witness :
    (∀ b ∈ sampleResult, b.object_id.starts_with sampleRoot = true) ∧
    List.Sublist (sampleResult.map fun b => b.object_id)
      (sampleResponse.data.variable_bindings.map fun b => b.name) :=
  c2_get_bulk_prefix_and_order sampleRoot sampleResponse sampleResult (by decide)

/-- C3 (code bug): `get` performs no response validation — a decoded reply
whose request id (999) differs from the request's id (1) and whose error
status is non-zero (2) is accepted as a successful result, and the `Error`
type has no protocol-error kind. -/
theorem c3_no_response_validation :
    (build_get_message (.Community 0 []) [{ segments := [1, 3] }]).data.request_id = 1 ∧
    mismatchedResponse.data.request_id = 999 ∧
    mismatchedResponse.data.error_status = 2 ∧
    get { bind_ok := true, encode_ok := true, send_ok := true,
          reply := some (some mismatchedResponse) }
        (.Community 0 []) [{ segments := [1, 3] }]
      = (.ok [{ object_id := { segments := [1, 3] }, value := .Integer 7 }], 1) :=
  ⟨rfl, rfl, rfl, by decide⟩

/-- C4 (code bug): `from_str` unwraps every segment parse, so an invalid
segment ("1.x") or the empty string aborts the process instead of returning
a recoverable `MalformedIdentifier` error (the `Error` type has no such
kind); a well-formed input does yield the sub-identifiers in order. -/
theorem c4_from_str_panics :
    from_str ['1', '.', 'x'] = .panic ∧ from_str [] = .panic ∧
    from_str ['1', '.', '2'] = .ok { segments := [1, 2] } :=
  ⟨by decide, by decide, by decide⟩

/-- C5 (code bug): when no reply ever arrives, `get` and `get_bulk` make
exactly one send attempt and then block forever on `recv_from` — there is
no timeout, no retry, and no `Timeout` error kind to fail with. -/
theorem c5_no_timeout_no_retry (t : Target) (oids : List ObjectIdentifier)
    (oid : ObjectIdentifier) :
    get { bind_ok := true, encode_ok := true, send_ok := true, reply := none } t oids
      = (.hang, 1) ∧
    get_bulk { bind_ok := true, encode_ok := true, send_ok := true, reply := none } t oid
      = (.hang, 1) := by
  cases t
  exact ⟨rfl, rfl⟩

/-- C6: each of the supported wire syntaxes converts to exactly one variant
of `ObjectValue`, field-for-field — Integer keeps its arbitrary-precision
value, OctetString its raw bytes — and `syntaxOfValue` recovers the wire
value from the result, so the conversion loses no precision. -/
theorem c6_convert_lossless :
    (∀ v, convertSyntax (.Simple (.Integer v)) = .Integer v) ∧
    (∀ b, convertSyntax (.Simple (.String b)) = .OctetString b) ∧
    (∀ o, convertSyntax (.Simple (.ObjectId o)) = .ObjectIdentifier o) ∧
    (∀ o0 o1 o2 o3,
      convertSyntax (.ApplicationWide (.Address o0 o1 o2 o3)) = .IpAddress o0 o1 o2 o3) ∧
    (∀ v, convertSyntax (.ApplicationWide (.Counter v)) = .Counter32 v) ∧
    (∀ v, convertSyntax (.ApplicationWide (.Ticks v)) = .TimeTicks v) ∧
    (∀ b, convertSyntax (.ApplicationWide (.Arbitrary b)) = .Opaque b) ∧
    (∀ v, convertSyntax (.ApplicationWide (.BigCounter v)) = .Counter64 v) ∧
    (∀ v, convertSyntax (.ApplicationWide (.Unsigned v)) = .Unsigned32 v) ∧
    (∀ s, syntaxOfValue (convertSyntax s) = some s) := by
  refine ⟨fun _ => rfl, fun _ => rfl, fun _ => rfl, fun _ _ _ _ => rfl, fun _ => rfl,
    fun _ => rfl, fun _ => rfl, fun _ => rfl, fun _ => rfl, ?_⟩
  intro s
  cases s with
  | Simple s => cases s <;> rfl
  | ApplicationWide a => cases a <;> rfl

/-- C7 is false as stated: against `walkResponse` — whose first three
bindings lie under the root, whose fourth lies outside it and whose fifth
lies under it again — `get_bulk` keeps the fifth binding instead of
stopping after the first three: it filters, it does not stop at the first
non-descendant. -/
theorem c7_counterexample :
    process_get_bulk_response walkRoot walkResponse
      = .ok (walkFirstThree ++ [walkFifth]) ∧
    walkFirstThree ++ [walkFifth] ≠ walkFirstThree :=
  ⟨by decide, by decide⟩

/-- C7 (amended): `get_bulk` keeps exactly the bindings whose identifier is
under the root, in returned order; when every binding from the first
non-descendant onward lies outside the root — as in the spec's scenario —
the result is therefore exactly the in-subtree prefix. -/
theorem c7_walk_keeps_subtree_prefix (oid : ObjectIdentifier) (resp : Message Pdu)
    (l pre post : List VariableBinding)
    (hm : mapConvert resp.data.variable_bindings = .ok (pre ++ post))
    (hpre : ∀ b ∈ pre, b.object_id.starts_with oid = true)
    (hpost : ∀ b ∈ post, b.object_id.starts_with oid = false)
    (h : process_get_bulk_response oid resp = .ok l) :
    l = pre := by
  simp only [process_get_bulk_response, hm] at h
  injection h with h
  subst h
  rw [List.filter_append, List.filter_eq_self.mpr hpre,
    List.filter_eq_nil_iff.mpr (fun b hb => by simp [hpost b hb]), List.append_nil]

/-- Witness for the amended C7 at the spec's scenario: three in-subtree
bindings followed only by out-of-subtree ones yield exactly those three. -/
theorem c7_walk_keeps_subtree_prefix_witness :
    process_get_bulk_response walkRoot walkResponse2 = .ok walkFirstThree ∧
    walkFirstThree = walkFirstThree :=
  ⟨by decide, c7_walk_keeps_subtree_prefix walkRoot walkResponse2
    walkFirstThree walkFirstThree walkTail2
    (by decide) (by decide) (by decide) (by decide)⟩

/-- C8 is false as stated: the textual identifier "01" parses successfully
(every segment is a valid non-negative integer) but renders back to "1",
so parse-then-render does not round-trip on it. -/
theorem c8_roundtrip_counterexample :
    from_str ['0', '1'] = .ok { segments := [1] } ∧
    to_text { segments := [1] } = ['1'] ∧
    (['1'] : List Char) ≠ ['0', '1'] :=
  ⟨by decide, by decide, by decide⟩

/-- C8 (amended): rendering then parsing always round-trips — for every
identifier with a non-empty segment sequence of 32-bit sub-identifiers,
`from_str (to_text o)` returns `o`; parse-then-render round-trips only on
canonically written input (no leading zeros or plus signs). -/
theorem c8_render_parse_roundtrip (o : ObjectIdentifier)
    (hne : o.segments ≠ []) (hbound : ∀ x ∈ o.segments, x < u32Size) :
    from_str (to_text o) = .ok o := by
  obtain ⟨segs⟩ := o
  cases segs with
  | nil => exact absurd rfl hne
  | cons s rest =>
    simp only [from_str, splitDot_to_text, parseSegments_map_renderNat hbound]

/-- Witness for the amended C8 at the identifier 1.3.6.1.2.1. -/
theorem c8_render_parse_roundtrip_witness :
    from_str (to_text { segments := [1, 3, 6, 1, 2, 1] })
      = .ok { segments := [1, 3, 6, 1, 2, 1] } :=
  c8_render_parse_roundtrip { segments := [1, 3, 6, 1, 2, 1] } (by decide) (by decide)

/-- C9 (code bug): every request `get` or `get_bulk` builds carries the
constant request id 1, so two distinct outstanding requests always share
the same id — allocation is neither unique nor non-constant. -/
theorem c9_request_id_constant (t u w : Target) (oids ods : List ObjectIdentifier)
    (oid : ObjectIdentifier) :
    (build_get_message t oids).data.request_id = 1 ∧
    (build_get_bulk_message w oid).data.request_id = 1 ∧
    (build_get_message t oids).data.request_id = (build_get_message u ods).data.request_id ∧
    (build_get_message t oids).data.request_id
      = (build_get_bulk_message w oid).data.request_id := by
  cases t; cases u; cases w
  exact ⟨rfl, rfl, rfl, rfl⟩

/-- C10: the conversion never produces the `Integer32` variant — every wire
integer maps to the arbitrary-precision `Integer` variant, so `Integer32`
is unreachable as decode output. -/
theorem c10_integer32_unreachable :
    (∀ s, isInteger32 (convertSyntax s) = false) ∧
    (∀ v, convertSyntax (.Simple (.Integer v)) = .Integer v) := by
  constructor
  · intro s
    cases s with
    | Simple s => cases s <;> rfl
    | ApplicationWide a => cases a <;> rfl
  · intro v
    rfl

end Snmp
